import Mathlib

/-!
Verification of the IAM user/group reconciliation scripts.

This file gives a shallow embedding of the repository's Python scripts:

* `user_stack/__main__.py`      — the Pulumi program declaring users, group
  memberships, access keys and login profiles from the `users` config
  (modelled as `load_users`, `plan_user`, `user_stack_plan`);
* `user_stack/sync_users.py`    — `sync_users`;
* `user_stack/import_user.py`   — `users_to_import`, `import_users_dict`,
  `import_user_plan`;
* `user_stack/create_user.py`   — `check_access_key_limit`, `create_user_path`;
* `user_stack/create_users.py`  — `create_users_default_path`;
* `user_stack/edit_user.py`     — `edit_remove_group`;
* `user_stack/manage_users.py`  — `validate_path`, `path_pattern_match`;
* `groups_stack/import_groups.py` — `fetch_group`, `fetch_all_groups`.

Remote AWS state is modelled as explicit data (`RemoteUser`, `RemoteGroup`);
fallible remote listings are modelled with `Except`; interactive inputs are
explicit parameters; `print`ed warnings and `pulumi.export`s are returned as
data.  Theorems at the end settle the frozen claims about these scripts.
-/

namespace IamAuto

/-! ## JSON values

`users_dict = json.loads(users_config)` in `user_stack/__main__.py` produces an
arbitrary JSON value; per-identity entries can be any JSON value, not only
objects.  Object fields are an association list (keys unique after
`json.loads`). -/

inductive JsonVal where
  | null
  | bool (b : Bool)
  | num (n : Int)
  | str (s : String)
  | arr (xs : List JsonVal)
  | obj (fields : List (String × JsonVal))

/-- Whether a JSON value is an object: Python `isinstance(user_obj, dict)`. -/
def JsonVal.isObj : JsonVal → Bool
  | .obj _ => true
  | _ => false

/-- Python `fields.get(key)`: the value bound to `key`, if any. -/
def json_get (fields : List (String × JsonVal)) (key : String) : Option JsonVal :=
  (fields.find? (fun p => p.1 == key)).map (·.2)

/-- A JSON value usable where Python expects a `str` (`.lower()` would raise
on anything else). -/
def as_string : JsonVal → Option String
  | .str s => some s
  | _ => none

/-- A JSON list of strings (the `groups` field as consumed by
`" ".join(groups)` and the membership resource). -/
def as_string_list : JsonVal → Option (List String)
  | .arr xs => xs.mapM as_string
  | _ => none

/-! ## Desired state (normalized per-user entry)

`user_stack/__main__.py` lines 32-42 normalize each entry of `users_dict`:
non-dict entries are replaced by `{"groups": [], "create_key": "no",
"has_console_access": "no"}`, flags are defaulted to `"no"` and lowered, the
path is defaulted to `"/"`. -/

structure UserEntry where
  groups : List String
  create_key : String
  has_console_access : String
  path : String
deriving DecidableEq

/-- The entry substituted for a non-dict value
(`{"groups": [], "create_key": "no", "has_console_access": "no"}`), after the
same `get`/`lower` processing as any dict entry: path defaults to `"/"`. -/
def default_user_entry : UserEntry :=
  { groups := [], create_key := "no", has_console_access := "no", path := "/" }

/-- Python `s.lower()` (over the ASCII range). -/
def py_lower (s : String) : String :=
  String.mk (s.data.map Char.toLower)

/-- `user_obj.get(key, "no").lower()`: missing field defaults to `"no"`;
a present field must be a string or Python's `.lower()` raises
(`AttributeError`), modelled as `none`. -/
def get_lower_flag (fields : List (String × JsonVal)) (key : String) : Option String :=
  match json_get fields key with
  | none => some "no"
  | some v => (as_string v).map py_lower

/-- `user_obj.get("path", "/")` (`user_stack/__main__.py` line 42): a missing
path defaults to the root path. -/
def get_path_field (fields : List (String × JsonVal)) : Option String :=
  match json_get fields "path" with
  | none => some "/"
  | some v => as_string v

/-- `user_obj.get("groups", [])`: a missing groups field defaults to the
empty list; a present field is consumed as a list of strings (by the
`Groups` tag join and the membership resource). -/
def get_groups_field (fields : List (String × JsonVal)) : Option (List String) :=
  match json_get fields "groups" with
  | none => some []
  | some v => as_string_list v

/-- Normalization of one per-identity entry, `user_stack/__main__.py`
lines 32-42.  A non-dict value is replaced by the default entry; a dict entry
has its fields extracted with defaults, failing (Python raises) when a flag
field is not a string or the groups field is not a list of strings. -/
def norm_user_obj : JsonVal → Option UserEntry
  | .obj fields =>
      match get_groups_field fields with
      | none => none
      | some groups =>
        match get_lower_flag fields "create_key" with
        | none => none
        | some ck =>
          match get_lower_flag fields "has_console_access" with
          | none => none
          | some ca =>
            match get_path_field fields with
            | none => none
            | some p =>
                some { groups := groups, create_key := ck,
                       has_console_access := ca, path := p }
  | _ => some default_user_entry

/-- Entry-by-entry normalization of the users mapping, in iteration order;
the first failing entry makes the whole load fail (Python raises mid-loop). -/
def load_entries : List (String × JsonVal) → Option (List (String × UserEntry))
  | [] => some []
  | p :: rest =>
      match norm_user_obj p.2 with
      | none => none
      | some e =>
        match load_entries rest with
        | none => none
        | some l => some ((p.1, e) :: l)

/-- The desired-state loader: the top level must be a mapping
(`users_dict.items()` raises otherwise), and each entry is normalized in
order.  `none` models the whole Pulumi program raising. -/
def load_users : JsonVal → Option (List (String × UserEntry))
  | .obj fields => load_entries fields
  | _ => none

/-! ## Path validation (`user_stack/manage_users.py` lines 39-40, 178-186) -/

/-- Whether the second character list begins with the first. -/
def chars_start_with : List Char → List Char → Bool
  | [], _ => true
  | _ :: _, [] => false
  | c :: cs, d :: ds => c == d && chars_start_with cs ds

/-- Python `s.startswith(head)`. -/
def str_starts_with (s head : String) : Bool :=
  chars_start_with head.data s.data

/-- Python `s.endswith(tail)`. -/
def str_ends_with (s tail : String) : Bool :=
  chars_start_with tail.data.reverse s.data.reverse

/-- Word character of the regex class `\w` (over the ASCII range):
alphanumeric or underscore. -/
def is_word_char (c : Char) : Bool := c.isAlphanum || c == '_'

/-- Python regex `PATH_PATTERN = re.compile(r'^/[\w/]*/$')` matched against a
string: a leading `/`, a possibly empty run of word characters or slashes,
and a final `/` distinct from the leading one. -/
def path_pattern_match (s : String) : Bool :=
  match s.data with
  | [] => false
  | c :: rest =>
      c == '/' && !rest.isEmpty && rest.getLast? == some '/'
        && rest.dropLast.all (fun d => is_word_char d || d == '/')

/-- `validate_path` from `user_stack/manage_users.py` lines 178-186: empty
path is accepted (defers to the default); otherwise the pattern must match
and the length must not exceed 512. -/
def validate_path (path : String) : Bool × String :=
  if path = "" then (true, "")
  else if !path_pattern_match path then
    (false, "Path must start and end with '/' and contain only alphanumeric characters and '/'")
  else if path.length > 512 then
    (false, "Path cannot exceed 512 characters")
  else (true, "")

/-! ## Remote AWS state

The scripts observe AWS through `boto3`/`aws.iam.get_user`: per user, the
path, the group memberships (`list_groups_for_user`), the access-key metadata
(`list_access_keys`, a list of key ids) and whether a login profile exists
(`get_login_profile` probe, not-found treated as `false`). -/

structure RemoteUser where
  path : String
  groups : List String
  accessKeys : List String
  hasLoginProfile : Bool
deriving DecidableEq

abbrev RemoteUsers := List (String × RemoteUser)

/-- Whether an association list binds a key. -/
def containsKey {α : Type} (m : List (String × α)) (k : String) : Bool :=
  m.any (fun p => p.1 == k)

/-- First binding of a key in an association list (Python dict lookup for
dicts built without key collisions). -/
def lookupKey {α : Type} (m : List (String × α)) (k : String) : Option α :=
  (m.find? (fun p => p.1 == k)).map (·.2)

/-- `login_profile_check` from `user_stack/__main__.py` lines 15-30: despite
its name, the probe is `aws.iam.get_user(user_name=username)` — it records
whether the USER exists remotely, not whether a login profile exists (the
code comments call this a workaround). -/
def login_profile_check (remote : RemoteUsers) (username : String) : Bool :=
  containsKey remote username

/-! ## The declared plan (`user_stack/__main__.py` lines 44-93)

Each loop iteration declares Pulumi resources and exports.  The operation
vocabulary below covers the resources and exports the scripts can declare,
plus `removeMembership` and `skip` so that frame properties (no membership is
ever removed, no skip-with-reason is ever emitted by this program) are
statable; no branch of the source emits those two. -/

inductive PasswordReport where
  | generatedAtCreation
  | unavailable (msg : String)
deriving DecidableEq

inductive Op where
  | createUser (name path tagsGroups : String)
  | createMembership (user : String) (groups : List String)
  | createAccessKey (user : String)
  | exportAccessKeyId (user : String)
  | exportSecretAccessKey (user : String)
  | createLoginProfile (user : String) (passwordLength : Nat) (resetRequired : Bool)
  | exportPassword (user : String) (value : PasswordReport)
  | removeMembership (user group : String)
  | skip (user reason : String)
deriving DecidableEq

def Op.isRemoveMembership : Op → Bool
  | .removeMembership _ _ => true
  | _ => false

def Op.isSkip : Op → Bool
  | .skip _ _ => true
  | _ => false

def Op.isCreateLoginProfile : Op → Bool
  | .createLoginProfile _ _ _ => true
  | _ => false

/-- The fixed string exported for a user that already exists
(`user_stack/__main__.py` line 93). -/
def login_unavailable_msg : String :=
  "User already has a login profile - password not available"

/-- Resources and exports declared for one user, `user_stack/__main__.py`
lines 44-93, in source order: the user (with its `Groups` tag), the group
membership when the groups list is non-empty, the access key and its two
exports when `create_key == "yes"`, and the login profile and password
export guarded by the (user-existence) probe. -/
def plan_user (remote : RemoteUsers) (username : String) (e : UserEntry) : List Op :=
  [Op.createUser username e.path
      (if e.groups.isEmpty then "None" else String.intercalate " " e.groups)]
  ++ (if e.groups.isEmpty then [] else [Op.createMembership username e.groups])
  ++ (if e.create_key == "yes" then
        [Op.createAccessKey username, Op.exportAccessKeyId username,
         Op.exportSecretAccessKey username]
      else [])
  ++ (if e.has_console_access == "yes" && !login_profile_check remote username then
        [Op.createLoginProfile username 16 true,
         Op.exportPassword username .generatedAtCreation]
      else if e.has_console_access == "yes" then
        [Op.exportPassword username (.unavailable login_unavailable_msg)]
      else [])

/-- The whole Pulumi program's declared plan: the per-user plans in the
iteration order of the (insertion-ordered) users mapping. -/
def user_stack_plan (remote : RemoteUsers) (users : List (String × UserEntry)) : List Op :=
  users.flatMap (fun p => plan_user remote p.1 p.2)

/-! ## Sync (`user_stack/sync_users.py`) -/

/-- The config entry derived from a remote user, as built by
`sync_users.py` lines 37-59 and `import_user.py` lines 56-78 (identical
derivations): groups copied, `create_key` set iff any access key exists,
`has_console_access` from the login-profile probe, path copied. -/
def user_from_remote (r : RemoteUser) : UserEntry :=
  { groups := r.groups,
    create_key := if r.accessKeys.isEmpty then "no" else "yes",
    has_console_access := if r.hasLoginProfile then "yes" else "no",
    path := r.path }

inductive SyncAction where
  | skip (user : String)
  | add (user : String) (entry : UserEntry)
deriving DecidableEq

def SyncAction.isSkip : SyncAction → Bool
  | .skip _ => true
  | _ => false

/-- `sync_users.py` main loop (lines 24-61): each remote user already present
in the (evolving) config is skipped without any remote sub-queries; absent
users are appended with their remote-derived entry.  Returns the updated
config and the per-user actions in processing order. -/
def sync_users : RemoteUsers → List (String × UserEntry) →
    List (String × UserEntry) × List SyncAction
  | [], current => (current, [])
  | (u, r) :: rest, current =>
      if containsKey current u then
        let res := sync_users rest current
        (res.1, .skip u :: res.2)
      else
        let res := sync_users rest (current ++ [(u, user_from_remote r)])
        (res.1, .add u (user_from_remote r) :: res.2)

/-! ## Import of users (`user_stack/import_user.py`) -/

/-- Python dict assignment `d[k] = v` on an insertion-ordered association
list: replace in place when the key is bound, append otherwise. -/
def dict_set (m : List (String × UserEntry)) (k : String) (v : UserEntry) :
    List (String × UserEntry) :=
  if containsKey m k then m.map (fun q => if q.1 == k then (q.1, v) else q)
  else m ++ [(k, v)]

/-- The config written by `import_user.py` lines 49-91: every remote user is
adopted with its remote-derived entry (`users_dict[username] = {...}`,
Python dict assignment). -/
def import_users_dict (remote : RemoteUsers) : List (String × UserEntry) :=
  remote.foldl (fun acc p => dict_set acc p.1 (user_from_remote p.2)) []

/-- `import_user.py` lines 80-86: a remote user needs importing exactly when
the resource name `user-<username>` is not among the user resources already
in the Pulumi state. -/
def users_to_import (usernames : List String) (existing_user_names : List String) :
    List String :=
  usernames.filter (fun u => !existing_user_names.contains ("user-" ++ u))

/-- Actions of the import run (`import_user.py` lines 117-143).  The
vocabulary includes delete and detach so that non-destructiveness of
the adoption is statable; no branch of the source emits them. -/
inductive ImportAction where
  | importUserRes (resourceName resourceId : String)
  | importMembership (resourceName resourceId : String)
  | skipMembership (user : String)
  | deleteResource (resourceName : String)
  | detachPolicy (resourceName : String)
deriving DecidableEq

def ImportAction.isDelete : ImportAction → Bool
  | .deleteResource _ => true
  | _ => false

def ImportAction.isDetach : ImportAction → Bool
  | .detachPolicy _ => true
  | _ => false

/-- The import commands issued by `import_user.py` lines 117-143: for each
user to import, a `pulumi import aws:iam/user:User` of the existing resource,
then — when it has groups — a membership import unless the membership
resource is already in state. -/
def import_user_plan (users_dict : List (String × UserEntry))
    (to_import : List String) (existing_group_memberships : List String) :
    List ImportAction :=
  to_import.flatMap (fun u =>
    match lookupKey users_dict u with
    | none => []
    | some info =>
        [ImportAction.importUserRes ("user-" ++ u) u]
        ++ (if info.groups.isEmpty then []
            else if existing_group_memberships.contains ("userGroupMembership-" ++ u) then
              [ImportAction.skipMembership u]
            else
              [ImportAction.importMembership ("userGroupMembership-" ++ u)
                (u ++ "/" ++ String.intercalate "," info.groups)]))

/-! ## Access-key ceiling pre-check (`user_stack/create_user.py` lines 89-132) -/

/-- `check_access_key_limit`: given the remote access-key ids of a user and
the interactive inputs (the lowered answer to "delete one first?" and the
parsed key selection, `none` when `int()` raises), returns whether to
proceed cleanly and the resulting remote key list.  With 2 or more keys it
only warns and returns `False` unless the operator deletes a valid key;
under the limit it returns `True` untouched. -/
def check_access_key_limit (keys : List String) (delete_key : String)
    (selection : Option Int) : Bool × List String :=
  if 2 ≤ keys.length then
    if delete_key == "yes" then
      match selection with
      | some n =>
          let key_idx := n - 1
          if 0 ≤ key_idx ∧ key_idx < keys.length then
            (true, keys.eraseIdx key_idx.toNat)
          else (false, keys)
      | none => (false, keys)
    else (false, keys)
  else (true, keys)

/-! ## Paths of newly added users -/

/-- `create_users.py` line 25: `user_path = "/"` (AWS Console default). -/
def create_users_default_path : String := "/"

/-- Python `s.strip('/')`: remove leading and trailing slashes. -/
def py_strip_slashes (s : String) : String :=
  String.mk (((s.data.dropWhile (fun c => c == '/')).reverse.dropWhile
    (fun c => c == '/')).reverse)

/-- `create_user.py` lines 228-234: the default path for interactively
created users is `"/system/"`; a non-empty custom path is auto-corrected to
start and end with `/`. -/
def create_user_path (custom_path : String) : String :=
  if custom_path = "" then "/system/"
  else if !(str_starts_with custom_path "/" && str_ends_with custom_path "/") then
    "/" ++ py_strip_slashes custom_path ++ "/"
  else custom_path

/-! ## Explicit membership edit (`user_stack/edit_user.py` lines 86-99) -/

/-- Python list indexing, including negative indices. -/
def py_list_get (l : List String) (i : Int) : Option String :=
  if 0 ≤ i then l.get? i.toNat
  else if i.natAbs ≤ l.length then l.get? (l.length - i.natAbs)
  else none

/-- The remove-group branch of `edit_user.py`: `group_idx = int(input())-1`,
`group_to_remove = current_groups[group_idx]`,
`current_groups.remove(group_to_remove)` (first occurrence); an out-of-range
index is caught and leaves the list unchanged. -/
def edit_remove_group (current_groups : List String) (selection : Int) : List String :=
  match py_list_get current_groups (selection - 1) with
  | some g => current_groups.erase g
  | none => current_groups

/-! ## Group scan (`groups_stack/import_groups.py` lines 44-116)

A remote group carries its metadata and the outcomes of the two fallible
listings: `list_attached_group_policies` (atomic: fails before yielding
anything) and the inline-policy listing, where `list_group_policies` is
atomic but each `get_group_policy` can fail individually, aborting the
inline loop after the documents fetched so far. -/

structure RemoteGroup where
  path : String
  arn : String
  created_date : String
  attached_result : Except String (List (String × String))
  inline_result : Except String (List (String × Except String String))

structure GroupData where
  path : String
  arn : String
  created_date : String
  managed_policy_arns : List String
  customer_managed_policies : List (String × String)
  inline_policies : List (String × String)
deriving DecidableEq

/-- The ARN head distinguishing AWS managed policies
(`policy_arn.startswith('arn:aws:iam::aws:policy/')`). -/
def aws_managed_arn_head : String := "arn:aws:iam::aws:policy/"

/-- The attached-policy loop of `fetch_all_groups`: each `(name, arn)` pair
goes to `managed_policy_arns` (arn only) or `customer_managed_policies`
according to its ARN head. -/
def split_attached (ps : List (String × String)) :
    List String × List (String × String) :=
  ps.foldr
    (fun p acc =>
      if str_starts_with p.2 aws_managed_arn_head then (p.2 :: acc.1, acc.2)
      else (acc.1, p :: acc.2))
    ([], [])

/-- The inline-policy loop: documents are accumulated in order until a
`get_group_policy` failure, which ends the loop keeping what was fetched and
recording the error. -/
def collect_inline : List (String × Except String String) →
    List (String × String) × Option String
  | [] => ([], none)
  | (n, .ok d) :: rest =>
      let r := collect_inline rest
      ((n, d) :: r.1, r.2)
  | (_, .error e) :: _ => ([], some e)

/-- Scan of one group (`fetch_all_groups`, per-group body, lines 61-106):
the group entry always exists; a failed attached listing leaves both policy
lists empty and records a warning; a failed inline fetch keeps the documents
fetched so far and records a warning. -/
def fetch_group (group_name : String) (r : RemoteGroup) : GroupData × List String :=
  let attached := match r.attached_result with
    | .ok ps => (split_attached ps, ([] : List String))
    | .error e =>
        (([], []), ["Warning: Could not fetch managed policies for "
          ++ group_name ++ ": " ++ e])
  let inl := match r.inline_result with
    | .ok entries =>
        let c := collect_inline entries
        (c.1, match c.2 with
          | none => ([] : List String)
          | some e => ["Warning: Could not fetch inline policies for "
              ++ group_name ++ ": " ++ e])
    | .error e =>
        ([], ["Warning: Could not fetch inline policies for "
          ++ group_name ++ ": " ++ e])
  ({ path := r.path, arn := r.arn, created_date := r.created_date,
     managed_policy_arns := attached.1.1,
     customer_managed_policies := attached.1.2,
     inline_policies := inl.1 },
   attached.2 ++ inl.2)

/-- `fetch_all_groups` (lines 44-116): every remote group is processed in
order; sub-resource failures are recorded as warnings and never abort the
scan. -/
def fetch_all_groups (remote : List (String × RemoteGroup)) :
    List (String × GroupData) × List String :=
  remote.foldl
    (fun acc p =>
      let fg := fetch_group p.1 p.2
      (acc.1 ++ [(p.1, fg.1)], acc.2 ++ fg.2))
    ([], [])

/-! ## Concrete instances used by counterexamples and witnesses -/

/-- Remote state in which carol already has 2 active access keys. -/
def carol_remote : RemoteUsers :=
  [("carol",
    { path := "/", groups := [], accessKeys := ["AKIACAROL1", "AKIACAROL2"],
      hasLoginProfile := false })]

/-- Desired entry for carol requesting a (3rd) credential. -/
def carol_entry : UserEntry :=
  { groups := ["A"], create_key := "yes", has_console_access := "no", path := "/" }

/-- Remote state in which dave exists but has no login profile. -/
def dave_remote : RemoteUsers :=
  [("dave",
    { path := "/", groups := [], accessKeys := [], hasLoginProfile := false })]

/-- Desired entry requesting console access. -/
def dave_entry : UserEntry :=
  { groups := [], create_key := "no", has_console_access := "yes", path := "/" }

/-- Remote state in which bob is in groups A and B. -/
def bob_remote : RemoteUsers :=
  [("bob",
    { path := "/", groups := ["A", "B"], accessKeys := [], hasLoginProfile := false })]

/-- Desired entry listing only group A for bob. -/
def bob_entry : UserEntry :=
  { groups := ["A"], create_key := "no", has_console_access := "no", path := "/" }

/-- Remote group Ops with 3 attached AWS managed policies and no inline
policies, all listings succeeding. -/
def ops_rg : RemoteGroup :=
  { path := "/", arn := "arn:aws:iam::123456789012:group/Ops",
    created_date := "2024-01-01T00:00:00",
    attached_result := .ok
      [("P1", "arn:aws:iam::aws:policy/P1"),
       ("P2", "arn:aws:iam::aws:policy/P2"),
       ("P3", "arn:aws:iam::aws:policy/P3")],
    inline_result := .ok [] }

/-! ## Theorems settling the claims -/

/-- Claim C9: the path validator accepts the empty string (deferring to the
default); it accepts a non-empty path exactly when it matches
`^/[\w/]*/$` and has at most 512 characters; any match of that pattern has
at least two characters, so the single-character root path `"/"` — the very
value the loader and `create_users.py` use as the default — is rejected. -/
theorem validate_path_spec :
    (validate_path "").1 = true
    ∧ (∀ p : String, p ≠ "" →
        ((validate_path p).1 = true ↔ path_pattern_match p = true ∧ p.length ≤ 512))
    ∧ (∀ p : String, path_pattern_match p = true → 2 ≤ p.length)
    ∧ (validate_path "/").1 = false
    ∧ default_user_entry.path = "/"
    ∧ create_users_default_path = "/" := by
  refine ⟨rfl, ?_, ?_, by decide, rfl, rfl⟩
  · intro p hp
    simp only [validate_path, if_neg hp]
    cases h1 : path_pattern_match p with
    | false => simp [h1]
    | true =>
      by_cases h2 : p.length > 512
      · simp [h1, h2]
        try omega
      · simp [h1, h2]
        try omega
  · intro p hpat
    obtain ⟨data⟩ := p
    cases data with
    | nil => simp [path_pattern_match] at hpat
    | cons c rest =>
      simp only [path_pattern_match, Bool.and_eq_true] at hpat
      obtain ⟨⟨⟨-, hne⟩, -⟩, -⟩ := hpat
      cases rest with
      | nil => simp at hne
      | cons d ds =>
        show 2 ≤ (c :: d :: ds).length
        simp [List.length_cons]
        try omega

/-- Claim C9 witness: the validator at concrete inputs. -/
theorem validate_path_spec_witness :
    ((validate_path "/app/").1 = true ↔ path_pattern_match "/app/" = true ∧ ("/app/" : String).length ≤ 512)
    ∧ 2 ≤ ("/app/" : String).length :=
  ⟨validate_path_spec.2.1 "/app/" (by decide),
   validate_path_spec.2.2.1 "/app/" (by decide)⟩

/-- Claim C8 counterexample: a user created interactively through
`create_user.py` with no path specified gets `"/system/"`, not the root
path `"/"`. -/
theorem default_path_cex :
    create_user_path "" = "/system/" ∧ create_user_path "" ≠ "/" := by
  refine ⟨rfl, by decide⟩

/-- Claim C8 (amended): an identity entry that omits the path field is
loaded with the root path `"/"` (also when the whole entry is not an
object), and `create_users.py` assigns `"/"` to new users; the interactive
`create_user.py`, however, defaults an unspecified path to `"/system/"`. -/
theorem default_path_amended :
    (∀ (fields : List (String × JsonVal)) (e : UserEntry),
        json_get fields "path" = none →
        norm_user_obj (.obj fields) = some e → e.path = "/")
    ∧ (∀ v : JsonVal, v.isObj = false → norm_user_obj v = some default_user_entry)
    ∧ create_users_default_path = "/"
    ∧ create_user_path "" = "/system/" := by
  refine ⟨?_, ?_, rfl, rfl⟩
  · intro fields e hget hnorm
    simp only [norm_user_obj, get_path_field, hget] at hnorm
    cases hg : get_groups_field fields with
    | none => rw [hg] at hnorm; cases hnorm
    | some g =>
      rw [hg] at hnorm
      cases hck : get_lower_flag fields "create_key" with
      | none => rw [hck] at hnorm; cases hnorm
      | some ck =>
        rw [hck] at hnorm
        cases hca : get_lower_flag fields "has_console_access" with
        | none => rw [hca] at hnorm; cases hnorm
        | some ca =>
          rw [hca] at hnorm
          cases hnorm
          rfl
  · intro v hv
    cases v <;> first | rfl | simp [JsonVal.isObj] at hv

/-- Claim C8 witness: the loader default applied to an entry without a path
field, and to a bare-string entry. -/
theorem default_path_amended_witness :
    ({ groups := [], create_key := "no", has_console_access := "no", path := "/" } : UserEntry).path = "/"
    ∧ norm_user_obj (.str "oops") = some default_user_entry :=
  ⟨default_path_amended.1 [("groups", JsonVal.arr [])]
      { groups := [], create_key := "no", has_console_access := "no", path := "/" }
      rfl rfl,
   default_path_amended.2.1 (.str "oops") rfl⟩

/-- Claim C6 counterexample: the top level is a well-formed mapping, yet the
load fails, because the structured entry for alice carries a numeric
`create_key` and Python's `.lower()` raises on it — so load failure is not
confined to an unparsable top level. -/
theorem malformed_entry_cex :
    (JsonVal.obj [("alice", JsonVal.obj [("create_key", JsonVal.num 1)])]).isObj = true
    ∧ load_users (.obj [("alice", .obj [("create_key", .num 1)])]) = none :=
  ⟨rfl, rfl⟩

/-- Claim C6 (amended): a per-identity entry that is not a structured object
is loaded as `{groups: [], create_key: "no", has_console_access: "no"}`
(path defaulting to `"/"`) and never makes the load fail; the load fails
when the top level is not a mapping, but it can also fail with a parsed top
level, when a structured entry's `create_key` or `has_console_access` field
holds a non-string value (the `.lower()` call raises). -/
theorem malformed_entry_amended :
    (∀ v : JsonVal, v.isObj = false → norm_user_obj v = some default_user_entry)
    ∧ (∀ fields : List (String × JsonVal), (∀ p ∈ fields, (p.2).isObj = false) →
        load_users (.obj fields) = some (fields.map (fun p => (p.1, default_user_entry))))
    ∧ (∀ v : JsonVal, v.isObj = false → load_users v = none)
    ∧ (∀ (fields : List (String × JsonVal)) (v : JsonVal),
        json_get fields "create_key" = some v → as_string v = none →
        norm_user_obj (.obj fields) = none) := by
  refine ⟨?_, ?_, ?_, ?_⟩
  · intro v hv
    cases v <;> first | rfl | simp [JsonVal.isObj] at hv
  · intro fields hall
    induction fields with
    | nil => rfl
    | cons p rest ih =>
      have hp : norm_user_obj p.2 = some default_user_entry := by
        have := hall p (List.mem_cons_self p rest)
        cases hv : p.2 <;> first | rfl | simp [hv, JsonVal.isObj] at this
      have hrest := ih (fun q hq => hall q (List.mem_cons_of_mem p hq))
      simp only [load_users] at hrest ⊢
      simp [load_entries, hp, hrest]
  · intro v hv
    cases v <;> first | rfl | simp [JsonVal.isObj] at hv
  · intro fields v hget hstr
    cases hg : get_groups_field fields with
    | none => simp [norm_user_obj, hg]
    | some g =>
      simp [norm_user_obj, hg, get_lower_flag, hget, hstr]

/-- Claim C6 witness: a bare-string entry among structured processing. -/
theorem malformed_entry_amended_witness :
    norm_user_obj (.str "just-a-string") = some default_user_entry
    ∧ load_users (.obj [("bob", .str "just-a-string")]) =
        some [("bob", default_user_entry)]
    ∧ load_users (.arr []) = none
    ∧ norm_user_obj (.obj [("create_key", .bool true)]) = none :=
  ⟨malformed_entry_amended.1 (.str "just-a-string") rfl,
   malformed_entry_amended.2.1 [("bob", .str "just-a-string")]
     (by intro p hp; simp at hp; rw [hp]; rfl),
   malformed_entry_amended.2.2.1 (.arr []) rfl,
   malformed_entry_amended.2.2.2 [("create_key", .bool true)] (.bool true) rfl rfl⟩

/-- The per-user plan never contains a skip operation: the Pulumi program
has no branch emitting one. -/
theorem plan_user_no_skip (remote : RemoteUsers) (u : String) (e : UserEntry) :
    (plan_user remote u e).all (fun op => !op.isSkip) = true := by
  simp only [plan_user, List.all_append, Bool.and_eq_true]
  refine ⟨⟨⟨by simp [Op.isSkip], ?_⟩, ?_⟩, ?_⟩ <;>
    · repeat' split
      all_goals simp [Op.isSkip]

/-- Claim C1 counterexample: carol already has 2 active access keys remotely
and her desired entry requests a credential; the declared plan still
contains a CreateCredential for carol and no skip operation at all. -/
theorem credential_ceiling_cex :
    ((lookupKey carol_remote "carol").map (fun r => r.accessKeys.length)) = some 2
    ∧ Op.createAccessKey "carol" ∈ plan_user carol_remote "carol" carol_entry
    ∧ (plan_user carol_remote "carol" carol_entry).all (fun op => !op.isSkip) = true := by
  refine ⟨rfl, by decide, by decide⟩

/-- Claim C1 (amended): whenever the desired credential flag is `"yes"`, the
declared plan contains a CreateCredential for that identity regardless of
the remote credential count, and never any skip operation; the 2-credential
ceiling is enforced only by the interactive pre-check
`check_access_key_limit`, which warns (returns false) when 2 or more keys
exist and no key is deleted, and passes cleanly under the limit. -/
theorem credential_ceiling_amended :
    (∀ (remote : RemoteUsers) (u : String) (e : UserEntry), e.create_key = "yes" →
        Op.createAccessKey u ∈ plan_user remote u e
        ∧ (plan_user remote u e).all (fun op => !op.isSkip) = true)
    ∧ (∀ (keys : List String) (delete_key : String) (sel : Option Int),
        2 ≤ keys.length → delete_key ≠ "yes" →
        (check_access_key_limit keys delete_key sel).1 = false)
    ∧ (∀ (keys : List String) (delete_key : String) (sel : Option Int),
        keys.length < 2 → check_access_key_limit keys delete_key sel = (true, keys)) := by
  refine ⟨?_, ?_, ?_⟩
  · intro remote u e h
    refine ⟨?_, plan_user_no_skip remote u e⟩
    simp [plan_user, h]
  · intro keys delete_key sel h2 hno
    simp [check_access_key_limit, h2, hno]
  · intro keys delete_key sel hlt
    have : ¬ 2 ≤ keys.length := by omega
    simp [check_access_key_limit, this]

/-- Claim C1 witness: the amended behavior at carol's concrete state. -/
theorem credential_ceiling_amended_witness :
    (Op.createAccessKey "carol" ∈ plan_user carol_remote "carol" carol_entry
      ∧ (plan_user carol_remote "carol" carol_entry).all (fun op => !op.isSkip) = true)
    ∧ (check_access_key_limit ["AKIACAROL1", "AKIACAROL2"] "no" none).1 = false
    ∧ check_access_key_limit ["AKIACAROL1"] "no" none = (true, ["AKIACAROL1"]) :=
  ⟨credential_ceiling_amended.1 carol_remote "carol" carol_entry rfl,
   credential_ceiling_amended.2.1 ["AKIACAROL1", "AKIACAROL2"] "no" none
     (by decide) (by decide),
   credential_ceiling_amended.2.2 ["AKIACAROL1"] "no" none (by decide)⟩

/-- Claim C5 counterexample: dave exists remotely WITHOUT a login profile and
console access is desired; the plan nevertheless contains no
CreateLoginCapability (the guard probes user existence, not login-profile
existence) and reports the password as the unavailable marker. -/
theorem login_capability_cex :
    ((lookupKey dave_remote "dave").map (fun r => r.hasLoginProfile)) = some false
    ∧ (plan_user dave_remote "dave" dave_entry).all
        (fun op => !op.isCreateLoginProfile) = true
    ∧ Op.exportPassword "dave" (.unavailable login_unavailable_msg)
        ∈ plan_user dave_remote "dave" dave_entry := by
  refine ⟨rfl, by decide, by decide⟩

/-- Claim C5 (amended): with the desired console-access flag set, the guard
is the remote user-existence probe: if the user does not exist remotely, the
plan contains a CreateLoginCapability and surfaces the password generated at
creation; if the user already exists remotely (with or without a login
profile), no CreateLoginCapability is emitted and the reported password is
the fixed unavailable marker, never a generated secret. -/
theorem login_capability_amended :
    ∀ (remote : RemoteUsers) (u : String) (e : UserEntry),
      e.has_console_access = "yes" →
      (login_profile_check remote u = false →
        Op.createLoginProfile u 16 true ∈ plan_user remote u e
        ∧ Op.exportPassword u .generatedAtCreation ∈ plan_user remote u e)
      ∧ (login_profile_check remote u = true →
        (plan_user remote u e).all (fun op => !op.isCreateLoginProfile) = true
        ∧ Op.exportPassword u (.unavailable login_unavailable_msg)
            ∈ plan_user remote u e
        ∧ Op.exportPassword u .generatedAtCreation ∉ plan_user remote u e) := by
  intro remote u e h
  constructor
  · intro hchk
    constructor <;> simp [plan_user, h, hchk]
  · intro hchk
    refine ⟨?_, ?_, ?_⟩
    · simp only [plan_user, h, hchk, List.all_append, Bool.and_eq_true]
      refine ⟨⟨⟨by simp [Op.isCreateLoginProfile], ?_⟩, ?_⟩, ?_⟩ <;>
        · repeat' split
          all_goals simp_all [Op.isCreateLoginProfile]
    · simp [plan_user, h, hchk]
    · simp only [plan_user, h, hchk, List.mem_append]
      intro hmem
      rcases hmem with ((hmem | hmem) | hmem) | hmem <;>
        · repeat' split at hmem
          all_goals simp_all

/-- Claim C5 witness: a user absent remotely gets the login capability and
the creation-time password. -/
theorem login_capability_amended_witness :
    Op.createLoginProfile "erin" 16 true ∈ plan_user [] "erin" dave_entry
    ∧ Op.exportPassword "erin" .generatedAtCreation ∈ plan_user [] "erin" dave_entry :=
  (login_capability_amended [] "erin" dave_entry rfl).1 rfl

/-- The per-user plan never contains a membership-removal operation. -/
theorem plan_user_no_remove (remote : RemoteUsers) (u : String) (e : UserEntry) :
    (plan_user remote u e).all (fun op => !op.isRemoveMembership) = true := by
  simp only [plan_user, List.all_append, Bool.and_eq_true]
  refine ⟨⟨⟨by simp [Op.isRemoveMembership], ?_⟩, ?_⟩, ?_⟩ <;>
    · repeat' split
      all_goals simp [Op.isRemoveMembership]

/-- A CreateMembership emitted by the per-user plan names that user and
carries exactly its desired (non-empty) group list. -/
theorem createMembership_mem_plan_user {remote : RemoteUsers} {name : String}
    {e : UserEntry} {u : String} {gs : List String}
    (h : Op.createMembership u gs ∈ plan_user remote name e) :
    u = name ∧ gs = e.groups ∧ e.groups ≠ [] := by
  simp only [plan_user, List.mem_append, List.mem_singleton, List.mem_cons,
    List.not_mem_nil] at h
  rcases h with ((h | h) | h) | h
  · rcases h with h | h
    · cases h
    · cases h
  · split at h
    · simp at h
    · simp only [List.mem_singleton] at h
      injection h with h1 h2
      refine ⟨h1, h2, ?_⟩
      simp_all [List.isEmpty_iff]
  · split at h <;> simp_all
  · split at h
    · simp_all
    · split at h <;> simp_all

/-- Claim C2: reconciliation is additive-only for memberships — the declared
plan never contains an operation removing a membership (in particular none
for a group present remotely but absent from the desired list); every
membership operation it declares carries exactly the desired group list of
its user; removal exists only as the separate explicit edit action of
`edit_user.py`, which deletes a selected group from the desired config. -/
theorem membership_additive_only :
    (∀ (remote : RemoteUsers) (users : List (String × UserEntry)),
        (user_stack_plan remote users).all (fun op => !op.isRemoveMembership) = true)
    ∧ (∀ (remote : RemoteUsers) (users : List (String × UserEntry)) (u : String)
          (gs : List String),
        Op.createMembership u gs ∈ user_stack_plan remote users →
        ∃ e, (u, e) ∈ users ∧ gs = e.groups ∧ e.groups ≠ [])
    ∧ (∀ (gs : List String) (sel : Int) (g : String),
        py_list_get gs (sel - 1) = some g →
        edit_remove_group gs sel = gs.erase g) := by
  refine ⟨?_, ?_, ?_⟩
  · intro remote users
    induction users with
    | nil => rfl
    | cons p rest ih =>
      simp only [user_stack_plan, List.flatMap_cons, List.all_append] at ih ⊢
      simp [plan_user_no_remove remote p.1 p.2, ih]
  · intro remote users u gs hmem
    induction users with
    | nil => simp [user_stack_plan] at hmem
    | cons p rest ih =>
      simp only [user_stack_plan, List.flatMap_cons, List.mem_append] at hmem
      rcases hmem with hmem | hmem
      · obtain ⟨h1, h2, h3⟩ := createMembership_mem_plan_user hmem
        exact ⟨p.2, by simp [h1], h2, h3⟩
      · obtain ⟨e, he, hgs, hne⟩ := ih hmem
        exact ⟨e, List.mem_cons_of_mem p he, hgs, hne⟩
  · intro gs sel g h
    simp [edit_remove_group, h]

/-- Claim C2 witness: bob is remotely in groups A and B, the desired config
lists only A; the plan's only membership operation is the additive one for
A, and the explicit edit action is what removes a group. -/
theorem membership_additive_only_witness :
    (∃ e, ("bob", e) ∈ [("bob", bob_entry)] ∧ ["A"] = e.groups ∧ e.groups ≠ [])
    ∧ edit_remove_group ["A", "B"] 2 = ["A"] :=
  ⟨membership_additive_only.2.1 bob_remote [("bob", bob_entry)] "bob" ["A"]
     (by decide),
   membership_additive_only.2.2 ["A", "B"] 2 "B" rfl⟩

/-- Keys bound in an association list stay bound after an append. -/
theorem containsKey_append_left {α : Type} {m : List (String × α)}
    (added : List (String × α)) {u : String} (h : containsKey m u = true) :
    containsKey (m ++ added) u = true := by
  simp only [containsKey, List.any_append, Bool.or_eq_true]
  exact Or.inl h

/-- Lookup of a key bound in the front part of an append is unchanged. -/
theorem lookupKey_append_of_contains {α : Type} {m : List (String × α)}
    (added : List (String × α)) {u : String} (h : containsKey m u = true) :
    lookupKey (m ++ added) u = lookupKey m u := by
  induction m with
  | nil => simp [containsKey] at h
  | cons p rest ih =>
    cases hp : (p.1 == u) with
    | true => simp [lookupKey, List.find?_cons, hp]
    | false =>
      have h' : containsKey rest u = true := by
        simpa [containsKey, hp] using h
      have := ih h'
      simpa [lookupKey, List.find?_cons, hp] using this

/-- The sync loop only ever appends: the updated config is the old config
followed by entries for users it did not already track. -/
theorem sync_users_append_only (remote : RemoteUsers) :
    ∀ current : List (String × UserEntry),
      ∃ added, (sync_users remote current).1 = current ++ added
        ∧ ∀ p ∈ added, containsKey current p.1 = false := by
  induction remote with
  | nil => intro current; exact ⟨[], by simp [sync_users], by simp⟩
  | cons q rest ih =>
    intro current
    cases hq : containsKey current q.1 with
    | true =>
      obtain ⟨added, h1, h2⟩ := ih current
      exact ⟨added, by simp [sync_users, hq, h1], h2⟩
    | false =>
      obtain ⟨added, h1, h2⟩ := ih (current ++ [(q.1, user_from_remote q.2)])
      refine ⟨(q.1, user_from_remote q.2) :: added, ?_, ?_⟩
      · simp [sync_users, hq, h1]
      · intro p hp
        rcases List.mem_cons.mp hp with hp | hp
        · rw [hp]; exact hq
        · have := h2 p hp
          simp only [containsKey, List.any_append, Bool.or_eq_false_iff] at this
          exact this.1

/-- Tracked keys stay tracked across a sync run. -/
theorem sync_users_contains_mono (remote : RemoteUsers) :
    ∀ (current : List (String × UserEntry)) (u : String),
      containsKey current u = true →
      containsKey (sync_users remote current).1 u = true := by
  intro current u h
  obtain ⟨added, h1, -⟩ := sync_users_append_only remote current
  rw [h1]
  exact containsKey_append_left added h

/-- After a sync run, every remote user is tracked. -/
theorem sync_users_covers (remote : RemoteUsers) :
    ∀ (current : List (String × UserEntry)) (p : String × RemoteUser),
      p ∈ remote → containsKey (sync_users remote current).1 p.1 = true := by
  induction remote with
  | nil => intro current p hp; cases hp
  | cons q rest ih =>
    intro current p hp
    cases hq : containsKey current q.1 with
    | true =>
      simp only [sync_users, hq, if_true]
      rcases List.mem_cons.mp hp with hp | hp
      · rw [hp]; exact sync_users_contains_mono rest current q.1 hq
      · exact ih current p hp
    | false =>
      simp only [sync_users, hq, Bool.false_eq_true, if_false]
      rcases List.mem_cons.mp hp with hp | hp
      · rw [hp]
        refine sync_users_contains_mono rest _ q.1 ?_
        simp [containsKey, List.any_append]
      · exact ih _ p hp

/-- A sync run against a config that already tracks every remote user is the
identity on the config and emits one skip per remote user. -/
theorem sync_users_all_present (remote : RemoteUsers) :
    ∀ current : List (String × UserEntry),
      (∀ p ∈ remote, containsKey current p.1 = true) →
      sync_users remote current = (current, remote.map (fun p => .skip p.1)) := by
  induction remote with
  | nil => intro current h; rfl
  | cons q rest ih =>
    intro current h
    have hq : containsKey current q.1 = true := h q (List.mem_cons_self q rest)
    have hrest := ih current (fun p hp => h p (List.mem_cons_of_mem q hp))
    simp [sync_users, hq, hrest]

/-- Claim C10: sync never modifies or removes a tracked entry — the updated
config is the old config plus entries only for previously untracked remote
users, and the binding of every tracked username is left exactly unchanged
(the tracked user is skipped, so nothing remote is written back). -/
theorem sync_frame_property :
    ∀ (remote : RemoteUsers) (current : List (String × UserEntry)),
      ∃ added, (sync_users remote current).1 = current ++ added
        ∧ (∀ p ∈ added, containsKey current p.1 = false)
        ∧ ∀ u, containsKey current u = true →
            lookupKey (sync_users remote current).1 u = lookupKey current u := by
  intro remote current
  obtain ⟨added, h1, h2⟩ := sync_users_append_only remote current
  refine ⟨added, h1, h2, ?_⟩
  intro u hu
  rw [h1]
  exact lookupKey_append_of_contains added hu

/-- Claim C10 witness: a tracked bob is untouched while a new user is
appended. -/
theorem sync_frame_property_witness :
    ∃ added,
      (sync_users
        [("bob", { path := "/", groups := ["A", "B"], accessKeys := [],
                   hasLoginProfile := false }),
         ("carol", { path := "/", groups := [], accessKeys := ["AKIACAROL1"],
                     hasLoginProfile := true })]
        [("bob", bob_entry)]).1 = [("bob", bob_entry)] ++ added
      ∧ (∀ p ∈ added, containsKey [("bob", bob_entry)] p.1 = false)
      ∧ ∀ u, containsKey [("bob", bob_entry)] u = true →
          lookupKey (sync_users
            [("bob", { path := "/", groups := ["A", "B"], accessKeys := [],
                       hasLoginProfile := false }),
             ("carol", { path := "/", groups := [], accessKeys := ["AKIACAROL1"],
                         hasLoginProfile := true })]
            [("bob", bob_entry)]).1 u = lookupKey [("bob", bob_entry)] u :=
  sync_frame_property _ [("bob", bob_entry)]

/-- Claim C4: reconciling a second time against unchanged remote state is
all skips — the sync run performed twice leaves the config of the first run
unchanged and emits only skip actions, and the import filter finds nothing
left to import once the first run's imports are in the state. -/
theorem reconcile_idempotent :
    ∀ (remote : RemoteUsers) (current : List (String × UserEntry))
      (usernames existing : List String),
      (sync_users remote (sync_users remote current).1 =
          ((sync_users remote current).1, remote.map (fun p => .skip p.1))
        ∧ (sync_users remote (sync_users remote current).1).2.all
            SyncAction.isSkip = true)
      ∧ users_to_import usernames
          (existing ++ (users_to_import usernames existing).map
            (fun u => "user-" ++ u)) = [] := by
  intro remote current usernames existing
  refine ⟨⟨?_, ?_⟩, ?_⟩
  · exact sync_users_all_present remote _ (fun p hp => sync_users_covers remote current p hp)
  · rw [sync_users_all_present remote _ (fun p hp => sync_users_covers remote current p hp)]
    simp only [List.all_eq_true, List.mem_map]
    intro a ha
    obtain ⟨p, -, hp⟩ := ha
    rw [← hp]
    rfl
  · simp only [users_to_import]
    rw [List.filter_eq_nil_iff]
    intro u hu
    have hmem : ("user-" ++ u) ∈
        existing ++ (users_to_import usernames existing).map (fun v => "user-" ++ v) := by
      by_cases h : ("user-" ++ u) ∈ existing
      · exact List.mem_append_left _ h
      · refine List.mem_append_right _ (List.mem_map_of_mem _ ?_)
        simp only [users_to_import, List.mem_filter]
        refine ⟨hu, ?_⟩
        simp [List.contains, h]
    simp only [List.contains, Bool.not_eq_true]
    simp [List.mem_append, users_to_import, List.mem_filter, List.contains] at hmem ⊢
    rcases hmem with hmem | ⟨a, ⟨ha1, ha2⟩, ha3⟩
    · exact Or.inl hmem
    · exact Or.inr ⟨a, ⟨ha1, ha2⟩, ha3⟩

/-- The group-scan fold is pointwise: each group's snapshot entry depends
only on that group's own remote data. -/
theorem fetch_all_groups_fold (remote : List (String × RemoteGroup)) :
    ∀ acc : List (String × GroupData) × List String,
      (remote.foldl
        (fun acc p =>
          let fg := fetch_group p.1 p.2
          (acc.1 ++ [(p.1, fg.1)], acc.2 ++ fg.2)) acc).1
        = acc.1 ++ remote.map (fun p => (p.1, (fetch_group p.1 p.2).1)) := by
  induction remote with
  | nil => intro acc; simp
  | cons p rest ih =>
    intro acc
    simp only [List.foldl_cons, List.map_cons]
    rw [ih]
    simp

/-- Claim C7: a failure of one group's sub-resource listing is tolerated —
the scan output still has one entry per remote group, each entry is a
function of its own group's remote data alone (so other groups are
unaffected), and the failing group keeps a degraded entry (empty policy
lists for a failed attached listing, the fetched prefix for a failed inline
fetch) together with a recorded warning naming it; the scan itself never
fails. -/
theorem degraded_scan_continues :
    (∀ remote : List (String × RemoteGroup),
        (fetch_all_groups remote).1 =
          remote.map (fun p => (p.1, (fetch_group p.1 p.2).1))
        ∧ (fetch_all_groups remote).1.length = remote.length)
    ∧ (∀ (n : String) (r : RemoteGroup) (e : String),
        r.attached_result = .error e →
        (fetch_group n r).1.managed_policy_arns = []
        ∧ (fetch_group n r).1.customer_managed_policies = []
        ∧ ("Warning: Could not fetch managed policies for " ++ n ++ ": " ++ e)
            ∈ (fetch_group n r).2)
    ∧ (∀ (n : String) (r : RemoteGroup) (e : String),
        r.inline_result = .error e →
        (fetch_group n r).1.inline_policies = []
        ∧ ("Warning: Could not fetch inline policies for " ++ n ++ ": " ++ e)
            ∈ (fetch_group n r).2) := by
  refine ⟨?_, ?_, ?_⟩
  · intro remote
    have h := fetch_all_groups_fold remote ([], [])
    constructor
    · simpa [fetch_all_groups] using h
    · have : (fetch_all_groups remote).1 =
          remote.map (fun p => (p.1, (fetch_group p.1 p.2).1)) := by
        simpa [fetch_all_groups] using h
      rw [this]
      simp
  · intro n r e he
    refine ⟨?_, ?_, ?_⟩ <;> simp [fetch_group, he]
  · intro n r e he
    refine ⟨?_, ?_⟩ <;> simp [fetch_group, he]

/-- Claim C7 witness: a group whose attached-policy listing fails keeps a
degraded snapshot entry plus a warning. -/
theorem degraded_scan_continues_witness :
    (fetch_group "Ops"
        { path := "/", arn := "a", created_date := "d",
          attached_result := .error "AccessDenied",
          inline_result := .ok [] }).1.managed_policy_arns = []
    ∧ (fetch_group "Ops"
        { path := "/", arn := "a", created_date := "d",
          attached_result := .error "AccessDenied",
          inline_result := .ok [] }).1.customer_managed_policies = []
    ∧ ("Warning: Could not fetch managed policies for " ++ "Ops" ++ ": " ++ "AccessDenied")
        ∈ (fetch_group "Ops"
            { path := "/", arn := "a", created_date := "d",
              attached_result := .error "AccessDenied",
              inline_result := .ok [] }).2 :=
  degraded_scan_continues.2.1 "Ops"
    { path := "/", arn := "a", created_date := "d",
      attached_result := .error "AccessDenied", inline_result := .ok [] }
    "AccessDenied" rfl

/-- The attached-policy loop partitions the listed policies by ARN head. -/
theorem split_attached_eq (ps : List (String × String)) :
    split_attached ps =
      ((ps.filter (fun p => str_starts_with p.2 aws_managed_arn_head)).map Prod.snd,
       ps.filter (fun p => !str_starts_with p.2 aws_managed_arn_head)) := by
  induction ps with
  | nil => rfl
  | cons p rest ih =>
    simp only [split_attached, List.foldr_cons] at ih ⊢
    by_cases h : str_starts_with p.2 aws_managed_arn_head = true <;>
      simp [h, ih, List.filter_cons]

/-- A fully successful inline fetch yields exactly the listed documents. -/
theorem collect_inline_ok (docs : List (String × String)) :
    collect_inline (docs.map (fun d => (d.1, Except.ok d.2))) = (docs, none) := by
  induction docs with
  | nil => rfl
  | cons d rest ih => simp [collect_inline, ih]

/-- The adoption fold writes each remote user once when usernames are
distinct. -/
theorem import_users_dict_fold (remote : RemoteUsers) :
    ∀ acc : List (String × UserEntry),
      (∀ p ∈ remote, containsKey acc p.1 = false) →
      (remote.map Prod.fst).Nodup →
      remote.foldl (fun acc p => dict_set acc p.1 (user_from_remote p.2)) acc
        = acc ++ remote.map (fun p => (p.1, user_from_remote p.2)) := by
  induction remote with
  | nil => intro acc _ _; simp
  | cons q rest ih =>
    intro acc hdisj hnd
    have hq : containsKey acc q.1 = false := hdisj q (List.mem_cons_self q rest)
    simp only [List.map_cons, List.nodup_cons] at hnd
    rw [List.foldl_cons]
    have hstep : dict_set acc q.1 (user_from_remote q.2)
        = acc ++ [(q.1, user_from_remote q.2)] := by
      simp [dict_set, hq]
    rw [hstep, ih (acc ++ [(q.1, user_from_remote q.2)]) ?_ hnd.2]
    · simp
    · intro p hp
      have h1 := hdisj p (List.mem_cons_of_mem q hp)
      have h2 : q.1 ≠ p.1 := by
        intro hcontra
        exact hnd.1 (hcontra ▸ List.mem_map_of_mem Prod.fst hp)
      have h3 : (q.1 == p.1) = false := by simp [h2]
      simp only [containsKey, List.any_append, Bool.or_eq_false_iff] at h1 ⊢
      exact ⟨by simpa [containsKey] using h1, by simp [h3]⟩

/-- Every action of the import plan is an import or a skip. -/
theorem import_user_plan_shape (users_dict : List (String × UserEntry))
    (to_import existing_group_memberships : List String) :
    (import_user_plan users_dict to_import existing_group_memberships).all
      (fun a => !a.isDelete && !a.isDetach) = true := by
  induction to_import with
  | nil => rfl
  | cons u rest ih =>
    simp only [import_user_plan] at ih ⊢
    rw [List.flatMap_cons, List.all_append, ih, Bool.and_true]
    cases h : lookupKey users_dict u with
    | none => simp [h]
    | some info =>
      simp only [h, List.all_append, Bool.and_eq_true]
      refine ⟨by simp [ImportAction.isDelete, ImportAction.isDetach], ?_⟩
      repeat' split
      all_goals simp [ImportAction.isDelete, ImportAction.isDetach]

/-- Claim C3: the import adopts only untracked remote entities, the adopted
desired state equals exactly the remote observation (groups, credential and
login-capability state, path for users; the partitioned attached policies
and the inline documents for groups), and the import plan contains no
delete or detach action. -/
theorem import_non_destructive :
    (∀ (usernames existing : List String) (u : String),
        u ∈ users_to_import usernames existing ↔
          u ∈ usernames ∧ ¬ ("user-" ++ u) ∈ existing)
    ∧ (∀ remote : RemoteUsers, (remote.map Prod.fst).Nodup →
        import_users_dict remote =
          remote.map (fun p => (p.1, user_from_remote p.2)))
    ∧ (∀ (name : String) (r : RemoteGroup) (ps docs : List (String × String)),
        r.attached_result = .ok ps →
        r.inline_result = .ok (docs.map (fun d => (d.1, Except.ok d.2))) →
        fetch_group name r =
          ({ path := r.path, arn := r.arn, created_date := r.created_date,
             managed_policy_arns :=
               (ps.filter (fun p => str_starts_with p.2 aws_managed_arn_head)).map Prod.snd,
             customer_managed_policies :=
               ps.filter (fun p => !str_starts_with p.2 aws_managed_arn_head),
             inline_policies := docs }, []))
    ∧ (∀ (users_dict : List (String × UserEntry))
          (to_import memberships : List String),
        (import_user_plan users_dict to_import memberships).all
          (fun a => !a.isDelete && !a.isDetach) = true) := by
  refine ⟨?_, ?_, ?_, import_user_plan_shape⟩
  · intro usernames existing u
    simp [users_to_import, List.mem_filter, List.contains]
  · intro remote hnd
    have := import_users_dict_fold remote [] (by intro p _; rfl) hnd
    simpa [import_users_dict] using this
  · intro name r ps docs h1 h2
    simp [fetch_group, h1, h2, split_attached_eq, collect_inline_ok]

set_option maxRecDepth 8192 in
/-- Claim C3 witness: group Ops with 3 attached AWS managed policies is
adopted with exactly those 3 policies and no warning, and a one-user remote
snapshot is adopted verbatim. -/
theorem import_non_destructive_witness :
    fetch_group "Ops" ops_rg =
      ({ path := "/", arn := "arn:aws:iam::123456789012:group/Ops",
         created_date := "2024-01-01T00:00:00",
         managed_policy_arns :=
           ["arn:aws:iam::aws:policy/P1", "arn:aws:iam::aws:policy/P2",
            "arn:aws:iam::aws:policy/P3"],
         customer_managed_policies := [], inline_policies := [] }, [])
    ∧ import_users_dict bob_remote =
        [("bob",
          { groups := ["A", "B"], create_key := "no", has_console_access := "no",
            path := "/" })]
    ∧ ("alice" ∈ users_to_import ["alice"] [] ↔
        "alice" ∈ ["alice"] ∧ ¬ ("user-" ++ "alice") ∈ ([] : List String)) := by
  refine ⟨?_, ?_, import_non_destructive.1 ["alice"] [] "alice"⟩
  · have h := import_non_destructive.2.2.1 "Ops" ops_rg
      [("P1", "arn:aws:iam::aws:policy/P1"), ("P2", "arn:aws:iam::aws:policy/P2"),
       ("P3", "arn:aws:iam::aws:policy/P3")] [] rfl rfl
    rw [h]
    rfl
  · have h := import_non_destructive.2.1 bob_remote (by decide)
    rw [h]
    rfl

end IamAuto
